import Mathlib

/-!
# Period filtering and comparison aggregation of the health dashboard

A shallow embedding of the logic shared by `pages/index.js` and
`src/Dashboard.js`: the period filter `filterByPeriod`, the averaging helper
`avg`, the chart data built inside `comparisonChart`, the sentences of
`generateInsights`, and the CSV loader of `handleFileUpload`.

Conventions of the embedding.

* A JavaScript number is `NaN`, an infinity or a finite binary64 value, held
  as its exact rational value (`JsNum`); every arithmetic operation rounds its
  exact result to the nearest binary64 value (`JsNum.ofRat`). The sign of zero
  is not represented.
* The scores of a record are finite; `avg` is the mean over exact rationals,
  `avgDouble` is the same computation in binary64 arithmetic, as the engine
  evaluates it.
* A `dayjs` object is a calendar date (no time of day) or the invalid date;
  its getters and `format` follow the dayjs library and its isoWeek plugin.
* JavaScript strings are Lean strings; `.length` counts UTF-16 code units.
* The loader takes the conversions of column text (`Number`, `dayjs`) as
  parameters; `decimalNumber` and `isoDate` cover the plain spellings and are
  used on the sample rows.
-/

namespace Dashboard

/-! ## Characters and decimal rendering -/

/-- The decimal digit character of `n % 10`. -/
def digitChar (n : Nat) : Char := Char.ofNat (48 + n % 10)

/-- The value of a decimal digit character. -/
def digitVal (c : Char) : Nat := c.toNat - 48

/-- Decimal digits of `n` in front of `acc`, most significant first; `fuel`
bounds the number of digits produced. -/
def natCharsAux : Nat → Nat → List Char → List Char
  | 0, _, acc => acc
  | fuel + 1, n, acc =>
    if n < 10 then digitChar n :: acc else natCharsAux fuel (n / 10) (digitChar n :: acc)

/-- The characters of `String(n)` for a non-negative integer `n`. -/
def natChars (n : Nat) : List Char := natCharsAux (n + 1) n []

/-- The characters of `String(y)` for an integer `y`. -/
def intChars (y : Int) : List Char :=
  if y < 0 then '-' :: natChars y.natAbs else natChars y.toNat

/-- The helper `padStart(string, length, "0")` of dayjs: shorter strings are
filled with zeros on the left, others are returned unchanged. -/
def padStart (s : List Char) (len : Nat) : List Char :=
  List.replicate (len - s.length) '0' ++ s

/-- The number denoted by a string of decimal digits (`Number("05") = 5`). -/
def digitsToNat (cs : List Char) : Nat :=
  cs.foldl (fun acc c => 10 * acc + digitVal c) 0

/-- The `length` property of a JavaScript string: the number of UTF-16 code
units, two for each character outside the basic multilingual plane. -/
def jsLength (s : String) : Nat :=
  (s.toList.map (fun c => if 65536 ≤ c.toNat then 2 else 1)).sum

/-! ## Numbers (IEEE 754 binary64) -/

/-- A JavaScript number: `NaN`, an infinity, or a finite value. -/
inductive JsNum where
  | nan : JsNum
  | inf (negative : Bool) : JsNum
  | fin (q : ℚ) : JsNum
deriving DecidableEq, Repr

/-- The power `2 ^ e` for an integer exponent. -/
def pow2 (e : Int) : ℚ := if 0 ≤ e then (2 : ℚ) ^ e.toNat else 1 / (2 : ℚ) ^ (-e).toNat

/-- The power `10 ^ e` for an integer exponent. -/
def pow10 (e : Int) : ℚ := if 0 ≤ e then (10 : ℚ) ^ e.toNat else 1 / (10 : ℚ) ^ (-e).toNat

/-- The position of the leading bit of `n`, by repeated halving; `fuel` bounds
the number of halvings. -/
def log2Aux : Nat → Nat → Nat
  | 0, _ => 0
  | fuel + 1, n => if n < 2 then 0 else log2Aux fuel (n / 2) + 1

/-- The binary exponent of a positive rational `a`: `2 ^ e ≤ a < 2 ^ (e + 1)`. -/
def floorLog2 (a : ℚ) : Int :=
  let e0 : Int := (log2Aux a.num.natAbs a.num.natAbs : Int) - (log2Aux a.den a.den : Int)
  if a < pow2 e0 then e0 - 1 else e0

/-- Rounding to the nearest integer, a tie going to the even neighbour. -/
def roundHalfEven (t : ℚ) : Int :=
  let f : Int := ⌊t⌋
  if t - f < 1 / 2 then f
  else if 1 / 2 < t - f then f + 1
  else if f % 2 = 0 then f else f + 1

/-- The binary64 value of an exact result (round to nearest, ties to even):
53 significant bits, gradual underflow below `2 ^ -1022`, an infinity from
`2 ^ 1024` on. -/
def JsNum.ofRat (x : ℚ) : JsNum :=
  if x = 0 then .fin 0
  else
    let a : ℚ := |x|
    let quantum : ℚ := pow2 (max (floorLog2 a - 52) (-1074))
    let r : ℚ := (roundHalfEven (a / quantum) : ℚ) * quantum
    if pow2 1024 ≤ r then .inf (decide (x < 0))
    else .fin (if x < 0 then -r else r)

/-- Unary minus. -/
def JsNum.neg : JsNum → JsNum
  | .nan => .nan
  | .inf s => .inf (!s)
  | .fin x => .fin (-x)

/-- The operator `+` on numbers. -/
def JsNum.add : JsNum → JsNum → JsNum
  | .fin x, .fin y => JsNum.ofRat (x + y)
  | .nan, _ => .nan
  | _, .nan => .nan
  | .inf s, .inf t => if s = t then .inf s else .nan
  | .inf s, .fin _ => .inf s
  | .fin _, .inf t => .inf t

/-- The operator `-` on numbers. -/
def JsNum.sub (a b : JsNum) : JsNum := a.add b.neg

/-- The operator `*` on numbers. -/
def JsNum.mul : JsNum → JsNum → JsNum
  | .fin x, .fin y => JsNum.ofRat (x * y)
  | .nan, _ => .nan
  | _, .nan => .nan
  | .inf s, .inf t => .inf (xor s t)
  | .inf s, .fin y => if y = 0 then .nan else .inf (xor s (decide (y < 0)))
  | .fin x, .inf t => if x = 0 then .nan else .inf (xor (decide (x < 0)) t)

/-- The operator `/` on numbers; a zero divisor counts as positive zero. -/
def JsNum.div : JsNum → JsNum → JsNum
  | .fin x, .fin y =>
    if y = 0 then (if x = 0 then .nan else .inf (decide (x < 0))) else JsNum.ofRat (x / y)
  | .nan, _ => .nan
  | _, .nan => .nan
  | .inf _, .inf _ => .nan
  | .inf s, .fin y => .inf (xor s (decide (y < 0)))
  | .fin _, .inf _ => .fin 0

/-- The function `Math.abs`. -/
def JsNum.abs : JsNum → JsNum
  | .nan => .nan
  | .inf _ => .inf false
  | .fin x => .fin |x|

/-- The comparison `x > 0`, false on `NaN`. -/
def JsNum.isPositive : JsNum → Bool
  | .nan => false
  | .inf s => !s
  | .fin x => decide (0 < x)

/-! ## Dates (the dayjs object) -/

/-- A dayjs object: the invalid date, or a calendar date with year, month
(1 to 12) and day of month. -/
inductive Dayjs where
  | invalid : Dayjs
  | ymd (year : Int) (month day : Nat) : Dayjs
deriving DecidableEq, Repr

/-- Leap years of the proleptic Gregorian calendar. -/
def isLeapYear (y : Int) : Bool :=
  (y % 4 == 0 && y % 100 != 0) || y % 400 == 0

/-- Number of days of month `m` in year `y`. -/
def daysInMonth (y : Int) (m : Nat) : Nat :=
  if m = 2 then (if isLeapYear y then 29 else 28)
  else if m = 4 ∨ m = 6 ∨ m = 9 ∨ m = 11 then 30
  else 31

/-- A date that dayjs can hold and print with a four-digit year: month and
day in range, year between 0 and 9999. -/
def Dayjs.valid : Dayjs → Bool
  | .invalid => false
  | .ymd y m d => decide (0 ≤ y) && decide (y ≤ 9999) && decide (1 ≤ m) && decide (m ≤ 12)
      && decide (1 ≤ d) && decide (d ≤ daysInMonth y m)

/-- Days from 1970-01-01 to the given civil date (proleptic Gregorian). -/
def daysFromCivil (y : Int) (m d : Nat) : Int :=
  let y1 : Int := if m ≤ 2 then y - 1 else y
  let era : Int := y1 / 400
  let yoe : Int := y1 - era * 400
  let mp : Int := if m ≤ 2 then (m : Int) + 9 else (m : Int) - 3
  let doy : Int := (153 * mp + 2) / 5 + (d : Int) - 1
  let doe : Int := yoe * 365 + yoe / 4 - yoe / 100 + doy
  era * 146097 + doe - 719468

/-- The civil year of a day number (inverse of `daysFromCivil` on the year). -/
def yearOfDays (z0 : Int) : Int :=
  let z : Int := z0 + 719468
  let era : Int := z / 146097
  let doe : Int := z - era * 146097
  let yoe : Int := (doe - doe / 1460 + doe / 36524 - doe / 146096) / 365
  let doy : Int := doe - (365 * yoe + yoe / 4 - yoe / 100)
  let mp : Int := (5 * doy + 2) / 153
  let y : Int := yoe + era * 400
  if mp < 10 then y else y + 1

/-- Day of the week of a day number, 0 = Sunday (`Date.prototype.getDay`). -/
def weekdayOfDays (z : Int) : Int := (z + 4) % 7

/-- The `isoWeekday()` getter on a day number: Monday = 1, Sunday = 7. -/
def isoWeekdayOfDays (z : Int) : Int :=
  if weekdayOfDays z = 0 then 7 else weekdayOfDays z

/-- The helper `getCurrentWeekThursday` of the isoWeek plugin. -/
def currentWeekThursday (z : Int) : Int := z + (4 - isoWeekdayOfDays z)

/-- The helper `getYearFirstThursday` of the isoWeek plugin. -/
def yearFirstThursday (year : Int) : Int :=
  let first := daysFromCivil year 1 1
  let add : Int := 4 - isoWeekdayOfDays first
  first + (if isoWeekdayOfDays first > 4 then add + 7 else add)

/-- The `year()` getter; `none` stands for `NaN` on the invalid date. -/
def Dayjs.year : Dayjs → Option Int
  | .invalid => none
  | .ymd y _ _ => some y

/-- The `isoWeekYear()` getter of the isoWeek plugin. -/
def Dayjs.isoWeekYear : Dayjs → Option Int
  | .invalid => none
  | .ymd y m d => some (yearOfDays (currentWeekThursday (daysFromCivil y m d)))

/-- The `isoWeek()` getter of the isoWeek plugin: whole weeks between the
Thursday of the date's week and the first Thursday of its ISO week year,
plus one. -/
def Dayjs.isoWeek : Dayjs → Option Int
  | .invalid => none
  | .ymd y m d =>
    let th := currentWeekThursday (daysFromCivil y m d)
    some (Int.tdiv (th - yearFirstThursday (yearOfDays th)) 7 + 1)

/-- The text of `format("YYYY")`. -/
def Dayjs.formatYYYY : Dayjs → String
  | .invalid => "Invalid Date"
  | .ymd y _ _ => String.mk (padStart (intChars y) 4)

/-- The text of `format("YYYY-MM")`. -/
def Dayjs.formatYYYYMM : Dayjs → String
  | .invalid => "Invalid Date"
  | .ymd y m _ => String.mk (padStart (intChars y) 4 ++ '-' :: padStart (natChars m) 2)

/-- The text of `format("YYYY-MM-DD")`. -/
def Dayjs.formatYYYYMMDD : Dayjs → String
  | .invalid => "Invalid Date"
  | .ymd y m d =>
    String.mk (padStart (intChars y) 4 ++ '-' :: padStart (natChars m) 2
      ++ '-' :: padStart (natChars d) 2)

/-! ## Records and the table -/

/-- The three score fields, the elements of the `fields` arrays. -/
inductive Field where
  | sleepScore
  | activityScore
  | readinessScore
deriving DecidableEq, Repr

/-- The property name of a score field. -/
def Field.name : Field → String
  | .sleepScore => "Sleep Score"
  | .activityScore => "Activity Score"
  | .readinessScore => "Readiness Score"

/-- The constant `fields` of `comparisonChart` and `generateInsights`. -/
def fields : List Field := [.sleepScore, .activityScore, .readinessScore]

/-- A raw CSV row as delivered by the parser: column name and text. -/
abbrev Row := List (String × String)

/-- A record of the table: the parsed date, the three coerced scores, and the
columns of the raw row copied by the object spread. -/
structure Record where
  date : Dayjs
  sleepScore : ℚ
  activityScore : ℚ
  readinessScore : ℚ
  columns : Row := []
deriving DecidableEq

/-- The property access `row[key]` for a score field. -/
def Record.get (r : Record) : Field → ℚ
  | .sleepScore => r.sleepScore
  | .activityScore => r.activityScore
  | .readinessScore => r.readinessScore

/-- The table held in the `data` state: an ordered sequence of records. -/
abbrev Table := List Record

/-! ## filterByPeriod -/

/-- The test `/^\d{4}-\d{2}$/`. -/
def testYearMonth (value : String) : Bool :=
  match value.toList with
  | [a, b, c, d, '-', e, f] =>
    a.isDigit && b.isDigit && c.isDigit && d.isDigit && e.isDigit && f.isDigit
  | _ => false

/-- The test `/^\d{4}-W\d{1,2}$/`. -/
def testYearWeek (value : String) : Bool :=
  match value.toList with
  | [a, b, c, d, '-', 'W', e] =>
    a.isDigit && b.isDigit && c.isDigit && d.isDigit && e.isDigit
  | [a, b, c, d, '-', 'W', e, f] =>
    a.isDigit && b.isDigit && c.isDigit && d.isDigit && e.isDigit && f.isDigit
  | _ => false

/-- The test `/^\d{4}-\d{2}-\d{2}$/`. -/
def testYearMonthDay (value : String) : Bool :=
  match value.toList with
  | [a, b, c, d, '-', e, f, '-', g, h] =>
    a.isDigit && b.isDigit && c.isDigit && d.isDigit && e.isDigit && f.isDigit
      && g.isDigit && h.isDigit
  | _ => false

/-- The pair `[year, week]` of `value.split("-W")` after `Number`, for a value
that passed `testYearWeek`: four year digits, two separator characters, the
week digits. -/
def splitYearWeek (value : String) : Int × Int :=
  ((digitsToNat (value.toList.take 4) : Nat), (digitsToNat (value.toList.drop 6) : Nat))

/-- The function `filterByPeriod` of both components, with the `data` state as
an explicit argument (`none` is the initial `null`). -/
def filterByPeriod (data : Option Table) (value : String) : Table :=
  match data with
  | none => []
  | some data =>
    if value = "" then []
    else if jsLength value = 4 then
      data.filter (fun d => d.date.formatYYYY = value)
    else if testYearMonth value then
      data.filter (fun d => d.date.formatYYYYMM = value)
    else if testYearWeek value then
      let yw := splitYearWeek value
      data.filter (fun d => d.date.isoWeek = some yw.2 ∧ d.date.year = some yw.1)
    else if testYearMonthDay value then
      data.filter (fun d => d.date.formatYYYYMMDD = value)
    else []

/-! ## avg, comparisonChart and generateInsights -/

/-- The function `avg` over exact rationals: the mean of the truthy (non-zero)
values of `key`, 0 when there is none. -/
def avg (arr : List Record) (key : Field) : ℚ :=
  let valid := arr.filter (fun row => row.get key ≠ 0)
  if valid.length = 0 then 0
  else valid.foldl (fun sum row => sum + row.get key) 0 / (valid.length : ℚ)

/-- The function `avg` as the engine evaluates it: the sum is accumulated in
binary64 arithmetic from the left, starting at 0, and divided by the count. -/
def avgDouble (arr : List Record) (key : Field) : JsNum :=
  let valid := arr.filter (fun row => row.get key ≠ 0)
  if valid.length = 0 then .fin 0
  else
    (valid.foldl (fun (sum : JsNum) row => sum.add (.fin (row.get key))) (.fin 0)).div
      (.fin (valid.length : ℚ))

/-- The function `Math.round`: the nearest integer, a half going to the
larger neighbour; `NaN` and the infinities are returned unchanged. -/
def mathRound : JsNum → JsNum
  | .fin x => .fin ((⌊x + 1 / 2⌋ : ℤ) : ℚ)
  | x => x

/-- A property value of a chart entry. -/
inductive JsVal where
  | str (s : String) : JsVal
  | num (n : JsNum) : JsVal
deriving DecidableEq, Repr

/-- An object as an ordered list of properties with distinct keys. -/
abbrev JsObject := List (String × JsVal)

/-- Definition of a property in an object literal: a key that is already
present keeps its place and takes the new value. -/
def JsObject.set (o : JsObject) (k : String) (v : JsVal) : JsObject :=
  if o.any (fun p => p.1 = k) then o.map (fun p => if p.1 = k then (k, v) else p)
  else o ++ [(k, v)]

/-- The property access `o[k]`; `none` is `undefined`. -/
def JsObject.get? (o : JsObject) (k : String) : Option JsVal :=
  (o.find? (fun p => p.1 = k)).map (fun p => p.2)

/-- The `chartData` computed by `comparisonChart`, `none` when the component
returns `null` instead of a chart. -/
def comparisonChart (data : Option Table) (compare1 compare2 : String) :
    Option (List JsObject) :=
  let d1 := filterByPeriod data compare1
  let d2 := filterByPeriod data compare2
  if d1.length = 0 ∨ d2.length = 0 then none
  else
    some (fields.map (fun field =>
      ((JsObject.set [] "name" (.str field.name)).set compare1
        (.num (mathRound (avgDouble d1 field)))).set compare2
          (.num (mathRound (avgDouble d2 field)))))

/-- One candidate of the shortest decimal of `x` with `k` digits and decimal
exponent `n`: the integers `s` next to `x / 10 ^ (n - k)` whose decimal
`s * 10 ^ (n - k)` reads back as `x`, the closer one (the even one on a tie);
a candidate `10 ^ k` is written as `10 ^ (k - 1)` with exponent `n + 1`. -/
def digitsCandidate (x : ℚ) (n : Int) (k : Nat) : Option (Nat × Int) :=
  let scale : ℚ := pow10 (n - k)
  let t : ℚ := x / scale
  let lo : Int := ⌊t⌋
  let ok (s : Int) : Bool :=
    decide ((10 : Int) ^ (k - 1) ≤ s) && decide (s ≤ (10 : Int) ^ k)
      && decide (JsNum.ofRat ((s : ℚ) * scale) = .fin x)
  let pick : Option Int :=
    if ok lo then
      if ok (lo + 1) then
        if t - lo < (lo + 1 : ℚ) - t then some lo
        else if (lo + 1 : ℚ) - t < t - lo then some (lo + 1)
        else if lo % 2 = 0 then some lo else some (lo + 1)
      else some lo
    else if ok (lo + 1) then some (lo + 1) else none
  pick.map (fun s => if s = (10 : Int) ^ k then (10 ^ (k - 1), n + 1) else (s.toNat, n))

/-- The digits `s` and the decimal exponent `n` of `Number::toString`: the
least number of digits `k`, tried from `k` upwards, whose decimal reads back as
`x`. A binary64 value needs at most 17 digits; the fallback after the fuel is
the nearest decimal. -/
def shortestDigits (x : ℚ) (n : Int) : Nat → Nat → Nat × Int
  | 0, k => ((roundHalfEven (x / pow10 (n - k))).toNat, n)
  | fuel + 1, k =>
    match digitsCandidate x n k with
    | some r => r
    | none => shortestDigits x n fuel (k + 1)

/-- The text of `Number::toString` for a finite `x` of at least `10 ^ 21`:
exponent notation with the shortest digits that read back as `x`. -/
def exponentForm (x : ℚ) : List Char :=
  let n0 : Int := ((natChars (⌊x⌋ : ℤ).toNat).length : Nat)
  let sn := shortestDigits x n0 17 1
  match natChars sn.1 with
  | [] => []
  | [d] => d :: 'e' :: '+' :: natChars (sn.2 - 1).toNat
  | d :: ds => d :: '.' :: ds ++ 'e' :: '+' :: natChars (sn.2 - 1).toNat

/-- The method `toFixed(1)`: below `10 ^ 21` the closest number of tenths to
the value, the larger one on a tie, printed with one decimal; from `10 ^ 21`
on, and for `NaN` and the infinities, the text of `Number::toString`. -/
def toFixed1 : JsNum → String
  | .nan => "NaN"
  | .inf s => if s then "-Infinity" else "Infinity"
  | .fin x =>
    if (10 : ℚ) ^ 21 ≤ |x| then
      String.mk ((if x < 0 then ['-'] else []) ++ exponentForm |x|)
    else
      let n : Nat := (⌊|x| * 10 + 1 / 2⌋).toNat
      String.mk ((if x < 0 then ['-'] else []) ++ natChars (n / 10) ++ '.' :: natChars (n % 10))

/-- The value `diff = ((a - b) / b) * 100` of `generateInsights`. -/
def percentDiff (a b : JsNum) : JsNum := ((a.sub b).div b).mul (.fin 100)

/-- The sentence built for one field from the averages `a` and `b` inside
`generateInsights`. -/
def insightSentence (field : Field) (a b : JsNum) : String :=
  let diff := percentDiff a b
  let diffText :=
    if diff.isPositive then "meningkat " ++ toFixed1 diff ++ "%"
    else "menurun " ++ toFixed1 diff.abs ++ "%"
  field.name ++ " " ++ diffText ++ " dibandingkan periode sebelumnya."

/-- The truthiness test of `filter(Boolean)` on `null` or a string. -/
def truthy : Option String → Bool
  | none => false
  | some s => decide (s ≠ "")

/-- The function `generateInsights`, with the state it reads as arguments. -/
def generateInsights (data : Option Table) (compare1 compare2 : String) : List String :=
  let d1 := filterByPeriod data compare1
  let d2 := filterByPeriod data compare2
  if d1.length = 0 ∨ d2.length = 0 then []
  else
    let insights : List (Option String) := fields.map (fun field =>
      let a := avgDouble d1 field
      let b := avgDouble d2 field
      if a = .fin 0 ∨ b = .fin 0 then none else some (insightSentence field a b))
    (insights.filter truthy).filterMap id

/-! ## The loader -/

/-- The property access `r[column]` on a raw row; `none` is `undefined`. -/
def Row.col (r : Row) (column : String) : Option String :=
  (r.find? (fun p => p.1 = column)).map (fun p => p.2)

/-- The expression `Number(v) || 0` for a column value `v`; `toNumber` is the
conversion of a string, `none` standing for `NaN`. -/
def numberOrZero (toNumber : String → Option ℚ) (v : Option String) : ℚ :=
  match v with
  | none => 0
  | some s =>
    match toNumber s with
    | none => 0
    | some q => if q = 0 then 0 else q

/-- The predicate `(r) => r.date` of the loader: the date column is present
and not the empty string. -/
def hasDate (r : Row) : Bool :=
  match r.col "date" with
  | none => false
  | some s => decide (s ≠ "")

/-- The object built by the `map` callback of the loader. -/
def toRecord (toNumber : String → Option ℚ) (parseDate : Option String → Dayjs) (r : Row) :
    Record :=
  { date := parseDate (r.col "date")
    sleepScore := numberOrZero toNumber (r.col "Sleep Score")
    activityScore := numberOrZero toNumber (r.col "Activity Score")
    readinessScore := numberOrZero toNumber (r.col "Readiness Score")
    columns := r }

/-- The `complete` callback of `Papa.parse` in `handleFileUpload`: the table
built from the parsed rows. The conversion `Number` of a string and the
constructor `dayjs` of a column value are parameters. -/
def parsed (toNumber : String → Option ℚ) (parseDate : Option String → Dayjs) (rows : List Row) :
    Table :=
  (rows.filter hasDate).map (toRecord toNumber parseDate)

/-- Signed decimal numerals with an optional fraction, and the empty string,
as `Number` converts them: the binary64 value nearest to the numeral. Other
spellings that JavaScript accepts (white space around the numeral, exponents,
other radixes) and numerals beyond the binary64 range are not covered and give
`none`. -/
def decimalNumber (s : String) : Option ℚ :=
  let unsigned (cs : List Char) : Option ℚ :=
    let ip := cs.takeWhile Char.isDigit
    match cs.dropWhile Char.isDigit with
    | [] => if ip = [] then none else some (digitsToNat ip : ℚ)
    | '.' :: fp =>
      if fp.all Char.isDigit && !(ip = [] && fp = []) then
        some ((digitsToNat ip : ℚ) + (digitsToNat fp : ℚ) / (10 : ℚ) ^ fp.length)
      else none
    | _ => none
  let exact : Option ℚ :=
    match s.toList with
    | [] => some 0
    | '-' :: cs => (unsigned cs).map (fun q => -q)
    | '+' :: cs => unsigned cs
    | cs => unsigned cs
  match exact.map JsNum.ofRat with
  | some (.fin q) => some q
  | _ => none

/-- The dates written `YYYY-MM-DD` with month and day in range and a year
from 0100 on, as `dayjs` parses them; every other argument gives the invalid
date here (dayjs accepts further spellings, and reads a missing argument as
the current time; these are not covered). -/
def isoDate (v : Option String) : Dayjs :=
  match v with
  | none => .invalid
  | some s =>
    if testYearMonthDay s then
      let y : Int := (digitsToNat (s.toList.take 4) : Nat)
      let m := digitsToNat ((s.toList.drop 5).take 2)
      let d := digitsToNat (s.toList.drop 8)
      if (Dayjs.ymd y m d).valid && decide (100 ≤ y) then .ymd y m d else .invalid
    else .invalid

/-! ## Component state -/

/-- The state of the component of `src/Dashboard.js`. -/
structure State where
  data : Option Table
  compare1 : String
  compare2 : String
  lang : String
  notes : List (String × String)

/-- The initial state of `src/Dashboard.js`. -/
def State.init : State :=
  { data := none, compare1 := "", compare2 := "", lang := "id", notes := [] }

/-- The handler `handleFileUpload`: without a file nothing changes, otherwise
the table built from the rows of the file replaces `data`. -/
def handleFileUpload (toNumber : String → Option ℚ) (parseDate : Option String → Dayjs)
    (st : State) (file : Option (List Row)) : State :=
  match file with
  | none => st
  | some rows => { st with data := some (parsed toNumber parseDate rows) }

/-- The state of the component of `pages/index.js`. -/
structure PageState where
  data : Option Table
  compare1 : String
  compare2 : String
  lang : String

/-- The events handled by the component of `pages/index.js`. -/
inductive PageEvent where
  | langChange (value : String)
  | compare1Change (value : String)
  | compare2Change (value : String)

/-- The initial state of `pages/index.js`. -/
def PageState.init : PageState :=
  { data := none, compare1 := "", compare2 := "", lang := "id" }

/-- One event of `pages/index.js`: each handler calls one state setter. -/
def PageState.step (st : PageState) : PageEvent → PageState
  | .langChange v => { st with lang := v }
  | .compare1Change v => { st with compare1 := v }
  | .compare2Change v => { st with compare2 := v }

/-- The state after a sequence of events. -/
def PageState.run (st : PageState) (evs : List PageEvent) : PageState :=
  evs.foldl PageState.step st

/-! ## The specification's reading of the operations -/

/-- The four shapes of a period token. -/
inductive Shape where
  | year
  | yearMonth
  | yearWeek
  | yearMonthDay
deriving DecidableEq, Repr

/-- Token classification as the specification words it: the first applicable
shape in the order year (exactly four characters, all digits), year-month,
ISO year-week, year-month-day; `none` for every other token. -/
def classify (token : String) : Option Shape :=
  if token.length = 4 ∧ token.toList.all Char.isDigit then some .year
  else if testYearMonth token then some .yearMonth
  else if testYearWeek token then some .yearWeek
  else if testYearMonthDay token then some .yearMonthDay
  else none

/-- The year and the week number written in a token of the ISO year-week
shape, read digit by digit. -/
def weekTokenParts (token : String) : Option (Int × Int) :=
  let v (c : Char) : Int := (c.toNat : Int) - 48
  match token.toList with
  | [a, b, c, d, '-', 'W', e] =>
    if [a, b, c, d, e].all Char.isDigit then
      some (1000 * v a + 100 * v b + 10 * v c + v d, v e)
    else none
  | [a, b, c, d, '-', 'W', e, f] =>
    if [a, b, c, d, e, f].all Char.isDigit then
      some (1000 * v a + 100 * v b + 10 * v c + v d, 10 * v e + v f)
    else none
  | _ => none

/-- The ISO 8601 year and week of a date: the week runs from Monday to Sunday,
belongs to the year that holds its Thursday, and is counted from the week of
the first Thursday of that year. -/
def isoYearWeek : Dayjs → Option (Int × Int)
  | .invalid => none
  | .ymd y m d =>
    let day := daysFromCivil y m d
    let thursday := day - (day + 3) % 7 + 3
    let weekYear := yearOfDays thursday
    some (weekYear, (thursday - daysFromCivil weekYear 1 1) / 7 + 1)

/-- The match rule of each shape: the printed year, year-month or
year-month-day of the record equals the token; for the ISO year-week shape
the date lies in the ISO 8601 week of the token. -/
def Shape.selects (token : String) : Shape → Record → Bool
  | .year, r => decide (r.date.formatYYYY = token)
  | .yearMonth, r => decide (r.date.formatYYYYMM = token)
  | .yearWeek, r =>
    match weekTokenParts token with
    | some yw => decide (isoYearWeek r.date = some yw)
    | none => false
  | .yearMonthDay, r => decide (r.date.formatYYYYMMDD = token)

/-- The operation `selectByPeriod` of the specification: the records matched
by the shape of the token, in table order; empty without a table or a shape. -/
def selectByPeriod (table : Option Table) (token : String) : Table :=
  match table, classify token with
  | some t, some shape => t.filter (shape.selects token)
  | _, _ => []

/-- Every record of the table has a valid date with a four-digit year. -/
def allValid (t : Table) : Prop := ∀ r ∈ t, r.date.valid = true

/-- The non-zero values of a field over a sequence of records. -/
def nonZeroValues (arr : List Record) (key : Field) : List ℚ :=
  (arr.map (fun r => r.get key)).filter (fun v => v ≠ 0)

/-- Rounding to the nearest integer with halves away from zero. -/
def roundHalfAwayFromZero (x : ℚ) : ℤ :=
  if 0 ≤ x then ⌊x + 1 / 2⌋ else -⌊-x + 1 / 2⌋

/-- The day number of the Monday that starts the week of a date. -/
def Dayjs.weekStart : Dayjs → Option Int
  | .invalid => none
  | .ymd y m d => some (daysFromCivil y m d - (isoWeekdayOfDays (daysFromCivil y m d) - 1))

/-! ## Sample inputs -/

/-- The table of the overlapping-periods scenario: two days of January 2024
with sleep scores 70 and 90. -/
def scenarioTable : Table :=
  [{ date := .ymd 2024 1 10, sleepScore := 70, activityScore := 0, readinessScore := 0 },
   { date := .ymd 2024 1 20, sleepScore := 90, activityScore := 0, readinessScore := 0 }]

/-- A table with the first Monday and the last Monday of 2024. -/
def weekTable : Table :=
  [{ date := .ymd 2024 1 1, sleepScore := 70, activityScore := 60, readinessScore := 80 },
   { date := .ymd 2024 12 30, sleepScore := 90, activityScore := 60, readinessScore := 80 }]

/-- Raw rows: one with a negative sleep score, one with an empty date, one
without a date column, one whose date is not a date. -/
def sampleRows : List Row :=
  [[("date", "2024-01-10"), ("Sleep Score", "-2.5"), ("Activity Score", "x")],
   [("date", ""), ("Sleep Score", "5")],
   [("Sleep Score", "5")],
   [("date", "abc"), ("Sleep Score", "81"), ("Readiness Score", "77")]]

/-- A table around the turn of the year 2020: Thursday 2020-12-31 and Friday
2021-01-01, both in ISO week 53 of 2020, and Monday 2021-01-04, the first day
of ISO week 1 of 2021. -/
def newYearTable : Table :=
  [{ date := .ymd 2020 12 31, sleepScore := 70, activityScore := 60, readinessScore := 80 },
   { date := .ymd 2021 1 1, sleepScore := 90, activityScore := 60, readinessScore := 80 },
   { date := .ymd 2021 1 4, sleepScore := 80, activityScore := 60, readinessScore := 80 }]

/-- Raw rows of two months: sleep scores 77.8, 79.1 and 63.6 in January 2024,
sleep scores 97.6 and 27.4 in February 2024, readiness 57 and 80. -/
def monthRows : List Row :=
  [[("date", "2024-01-05"), ("Sleep Score", "77.8"), ("Readiness Score", "57")],
   [("date", "2024-01-06"), ("Sleep Score", "79.1"), ("Readiness Score", "57")],
   [("date", "2024-01-07"), ("Sleep Score", "63.6"), ("Readiness Score", "57")],
   [("date", "2024-02-05"), ("Sleep Score", "97.6"), ("Readiness Score", "80")],
   [("date", "2024-02-06"), ("Sleep Score", "27.4"), ("Readiness Score", "80")]]

/-- The table that the loader builds from `monthRows`. -/
def monthTable : Table := parsed decimalNumber isoDate monthRows

/-! ## Auxiliary lemmas on printed dates -/


theorem digitChar_isDigit (n : Nat) : (digitChar n).isDigit = true := by
  have h : ∀ k : Fin 10, (Char.ofNat (48 + k.val)).isDigit = true := by decide
  exact h ⟨n % 10, Nat.mod_lt _ (by norm_num)⟩


theorem isDigit_toNat_lt {c : Char} (h : c.isDigit = true) : c.toNat < 65536 := by
  simp only [Char.isDigit, Bool.and_eq_true, decide_eq_true_eq] at h
  have h2 : c.val.toNat ≤ (57 : UInt32).toNat := UInt32.le_def.1 h.2
  have h3 : c.toNat = c.val.toNat := rfl
  have h4 : (57 : UInt32).toNat = 57 := rfl
  omega

theorem natCharsAux_isDigit (fuel n : Nat) (acc : List Char)
    (hacc : ∀ c ∈ acc, c.isDigit = true) :
    ∀ c ∈ natCharsAux fuel n acc, c.isDigit = true := by
  induction fuel generalizing n acc with
  | zero => simpa [natCharsAux] using hacc
  | succ fuel ih =>
    have hcons : ∀ c ∈ digitChar n :: acc, c.isDigit = true := by
      intro c hc
      rcases List.mem_cons.1 hc with rfl | hc
      · exact digitChar_isDigit n
      · exact hacc c hc
    unfold natCharsAux
    split
    · exact hcons
    · exact ih _ _ hcons

theorem natCharsAux_length_le (k : Nat) : ∀ (fuel n : Nat) (acc : List Char),
    n < 10 ^ (k + 1) → (natCharsAux fuel n acc).length ≤ k + 1 + acc.length := by
  induction k with
  | zero =>
    intro fuel n acc hn
    cases fuel with
    | zero => simp [natCharsAux]
    | succ fuel =>
      have : n < 10 := by simpa using hn
      simp [natCharsAux, this]; omega
  | succ k ih =>
    intro fuel n acc hn
    cases fuel with
    | zero => simp only [natCharsAux]; omega
    | succ fuel =>
      unfold natCharsAux
      split
      · simp; omega
      · have h10 : n / 10 < 10 ^ (k + 1) := by
          rw [Nat.div_lt_iff_lt_mul (by norm_num)]
          calc n < 10 ^ (k + 1 + 1) := hn
            _ = 10 ^ (k + 1) * 10 := by ring
        have := ih fuel (n / 10) (digitChar n :: acc) h10
        simp at this ⊢
        omega

theorem natChars_isDigit (n : Nat) : ∀ c ∈ natChars n, c.isDigit = true :=
  natCharsAux_isDigit _ _ _ (by simp)

theorem natChars_length_le (k n : Nat) (h : n < 10 ^ (k + 1)) : (natChars n).length ≤ k + 1 := by
  simpa using natCharsAux_length_le k (n + 1) n [] h

theorem padStart_length (s : List Char) (len : Nat) (h : s.length ≤ len) :
    (padStart s len).length = len := by
  simp only [padStart, List.length_append, List.length_replicate]; omega

theorem padStart_isDigit (s : List Char) (len : Nat) (h : ∀ c ∈ s, c.isDigit = true) :
    ∀ c ∈ padStart s len, c.isDigit = true := by
  intro c hc
  simp only [padStart, List.mem_append] at hc
  rcases hc with hc | hc
  · have := (List.mem_replicate.1 hc).2
    subst this; decide
  · exact h c hc



theorem list_length_two {α : Type} (l : List α) (h : l.length = 2) : ∃ a b, l = [a, b] := by
  match l, h with
  | [a, b], _ => exact ⟨a, b, rfl⟩

theorem list_length_four {α : Type} (l : List α) (h : l.length = 4) :
    ∃ a b c d, l = [a, b, c, d] := by
  match l, h with
  | [a, b, c, d], _ => exact ⟨a, b, c, d, rfl⟩

/-- The year of a valid date prints as four digits. -/
theorem yearChars_of_valid {y : Int} (h0 : 0 ≤ y) (h1 : y ≤ 9999) :
    ∃ a b c d, padStart (intChars y) 4 = [a, b, c, d] ∧ a.isDigit = true ∧ b.isDigit = true
      ∧ c.isDigit = true ∧ d.isDigit = true := by
  have hi : intChars y = natChars y.toNat := by
    simp [intChars, not_lt.2 h0]
  have hlen : (natChars y.toNat).length ≤ 4 :=
    natChars_length_le 3 _ (by norm_num; omega)
  have hdig := padStart_isDigit (natChars y.toNat) 4 (natChars_isDigit _)
  obtain ⟨a, b, c, d, habcd⟩ := list_length_four _ (padStart_length _ 4 hlen)
  rw [hi]
  refine ⟨a, b, c, d, habcd, ?_, ?_, ?_, ?_⟩ <;> apply hdig <;> simp [habcd]

/-- A month or day below 100 prints as two digits. -/
theorem twoChars_of_lt {n : Nat} (h : n < 100) :
    ∃ a b, padStart (natChars n) 2 = [a, b] ∧ a.isDigit = true ∧ b.isDigit = true := by
  have hlen : (natChars n).length ≤ 2 := natChars_length_le 1 _ (by norm_num; omega)
  have hdig := padStart_isDigit (natChars n) 2 (natChars_isDigit _)
  obtain ⟨a, b, hab⟩ := list_length_two _ (padStart_length _ 2 hlen)
  refine ⟨a, b, hab, ?_, ?_⟩ <;> apply hdig <;> simp [hab]

theorem daysInMonth_le (y : Int) (m : Nat) : daysInMonth y m ≤ 31 := by
  unfold daysInMonth
  split_ifs <;> omega

/-- The components of a valid date. -/
theorem valid_ymd {dt : Dayjs} (h : dt.valid = true) :
    ∃ y m d, dt = .ymd y m d ∧ 0 ≤ y ∧ y ≤ 9999 ∧ m < 100 ∧ d < 100 := by
  cases dt with
  | invalid => simp [Dayjs.valid] at h
  | ymd y m d =>
    simp only [Dayjs.valid, Bool.and_eq_true, decide_eq_true_eq] at h
    have := daysInMonth_le y m
    exact ⟨y, m, d, rfl, by omega, by omega, by omega, by omega⟩

theorem string_length_toList (s : String) : s.length = s.toList.length := rfl

theorem jsLength_eq_length (s : String) (h : ∀ c ∈ s.toList, c.toNat < 65536) :
    jsLength s = s.length := by
  unfold jsLength
  have : s.toList.map (fun c => if 65536 ≤ c.toNat then 2 else 1) = s.toList.map (fun _ => 1) := by
    apply List.map_congr_left
    intro c hc
    have h1 : ¬ 65536 ≤ c.toNat := Nat.not_le.2 (h c hc)
    simp only [if_neg h1]
  rw [this, string_length_toList]
  simp only [List.map_const', List.sum_replicate, smul_eq_mul, mul_one]

theorem testYearMonth_jsLength {v : String} (h : testYearMonth v = true) : jsLength v = 7 := by
  unfold testYearMonth at h
  split at h
  · rename_i a b c d e f heq
    simp only [Bool.and_eq_true] at h
    obtain ⟨⟨⟨⟨⟨ha, hb⟩, hc⟩, hd⟩, he⟩, hf⟩ := h
    rw [jsLength_eq_length, string_length_toList, heq]
    · rfl
    · intro x hx
      rw [heq] at hx
      simp only [List.mem_cons, List.mem_singleton, List.not_mem_nil, or_false] at hx
      rcases hx with rfl | rfl | rfl | rfl | rfl | rfl | rfl <;>
        first | exact isDigit_toNat_lt (by assumption) | decide
  · exact absurd h (by simp)

theorem testYearWeek_jsLength {v : String} (h : testYearWeek v = true) :
    jsLength v = 7 ∨ jsLength v = 8 := by
  unfold testYearWeek at h
  split at h
  · rename_i a b c d e heq
    simp only [Bool.and_eq_true] at h
    obtain ⟨⟨⟨⟨ha, hb⟩, hc⟩, hd⟩, he⟩ := h
    left
    rw [jsLength_eq_length, string_length_toList, heq]
    · rfl
    · intro x hx
      rw [heq] at hx
      simp only [List.mem_cons, List.mem_singleton, List.not_mem_nil, or_false] at hx
      rcases hx with rfl | rfl | rfl | rfl | rfl | rfl | rfl <;>
        first | exact isDigit_toNat_lt (by assumption) | decide
  · rename_i a b c d e f heq
    simp only [Bool.and_eq_true] at h
    obtain ⟨⟨⟨⟨⟨ha, hb⟩, hc⟩, hd⟩, he⟩, hf⟩ := h
    right
    rw [jsLength_eq_length, string_length_toList, heq]
    · rfl
    · intro x hx
      rw [heq] at hx
      simp only [List.mem_cons, List.mem_singleton, List.not_mem_nil, or_false] at hx
      rcases hx with rfl | rfl | rfl | rfl | rfl | rfl | rfl | rfl <;>
        first | exact isDigit_toNat_lt (by assumption) | decide
  · exact absurd h (by simp)

theorem testYearMonthDay_jsLength {v : String} (h : testYearMonthDay v = true) :
    jsLength v = 10 := by
  unfold testYearMonthDay at h
  split at h
  · rename_i a b c d e f g i heq
    simp only [Bool.and_eq_true] at h
    obtain ⟨⟨⟨⟨⟨⟨⟨ha, hb⟩, hc⟩, hd⟩, he⟩, hf⟩, hg⟩, hi⟩ := h
    rw [jsLength_eq_length, string_length_toList, heq]
    · rfl
    · intro x hx
      rw [heq] at hx
      simp only [List.mem_cons, List.mem_singleton, List.not_mem_nil, or_false] at hx
      rcases hx with rfl | rfl | rfl | rfl | rfl | rfl | rfl | rfl | rfl | rfl <;>
        first | exact isDigit_toNat_lt (by assumption) | decide
  · exact absurd h (by simp)

/-- A token of four digits has JavaScript length 4. -/
theorem jsLength_of_year_token {v : String}
    (h : v.length = 4 ∧ v.toList.all Char.isDigit = true) : jsLength v = 4 := by
  rw [jsLength_eq_length, h.1]
  intro c hc
  exact isDigit_toNat_lt (List.all_eq_true.1 h.2 c hc)

/-- The year text of a valid date is a token of four digits. -/
theorem formatYYYY_year_token {dt : Dayjs} (h : dt.valid = true) :
    dt.formatYYYY.length = 4 ∧ dt.formatYYYY.toList.all Char.isDigit = true := by
  obtain ⟨y, m, d, rfl, h0, h1, -, -⟩ := valid_ymd h
  obtain ⟨a, b, c, e, habce, ha, hb, hc, he⟩ := yearChars_of_valid h0 h1
  simp only [Dayjs.formatYYYY, habce]
  refine ⟨rfl, ?_⟩
  simp [ha, hb, hc, he]

theorem jsLength_mk_of_lt (cs : List Char) (h : ∀ c ∈ cs, c.toNat < 65536) :
    jsLength (String.mk cs) = cs.length := by
  rw [jsLength_eq_length _ h]
  rfl

/-- The filter on a year token of four digits. -/
theorem filterByPeriod_year (t : Table) {a b c d : Char} (ha : a.isDigit = true)
    (hb : b.isDigit = true) (hc : c.isDigit = true) (hd : d.isDigit = true) :
    filterByPeriod (some t) (String.mk [a, b, c, d])
      = t.filter (fun r => decide (r.date.formatYYYY = String.mk [a, b, c, d])) := by
  have hl : jsLength (String.mk [a, b, c, d]) = 4 := by
    rw [jsLength_mk_of_lt]
    · rfl
    · intro x hx
      simp only [List.mem_cons, List.mem_singleton, List.not_mem_nil, or_false] at hx
      rcases hx with rfl | rfl | rfl | rfl <;> exact isDigit_toNat_lt (by assumption)
  have he : String.mk [a, b, c, d] ≠ "" := by
    intro h
    have := congrArg String.length h
    simp at this
  simp only [filterByPeriod, he, hl, if_true, if_false]

/-- The filter on a year-month token. -/
theorem filterByPeriod_yearMonth (t : Table) {a b c d e f : Char} (ha : a.isDigit = true)
    (hb : b.isDigit = true) (hc : c.isDigit = true) (hd : d.isDigit = true)
    (he : e.isDigit = true) (hf : f.isDigit = true) :
    filterByPeriod (some t) (String.mk [a, b, c, d, '-', e, f])
      = t.filter (fun r => decide (r.date.formatYYYYMM = String.mk [a, b, c, d, '-', e, f])) := by
  have ht : testYearMonth (String.mk [a, b, c, d, '-', e, f]) = true := by
    simp [testYearMonth, ha, hb, hc, hd, he, hf]
  have hl : jsLength (String.mk [a, b, c, d, '-', e, f]) ≠ 4 := by
    rw [testYearMonth_jsLength ht]
    omega
  have hne : String.mk [a, b, c, d, '-', e, f] ≠ "" := by
    intro h
    have := congrArg String.length h
    simp at this
  simp only [filterByPeriod, hne, hl, ht, if_true, if_false]

/-- The filter on a year-month-day token. -/
theorem filterByPeriod_yearMonthDay (t : Table) {a b c d e f g h : Char} (ha : a.isDigit = true)
    (hb : b.isDigit = true) (hc : c.isDigit = true) (hd : d.isDigit = true)
    (he : e.isDigit = true) (hf : f.isDigit = true) (hg : g.isDigit = true)
    (hh : h.isDigit = true) :
    filterByPeriod (some t) (String.mk [a, b, c, d, '-', e, f, '-', g, h])
      = t.filter (fun r =>
          decide (r.date.formatYYYYMMDD = String.mk [a, b, c, d, '-', e, f, '-', g, h])) := by
  have ht : testYearMonthDay (String.mk [a, b, c, d, '-', e, f, '-', g, h]) = true := by
    simp [testYearMonthDay, ha, hb, hc, hd, he, hf, hg, hh]
  have hl : jsLength (String.mk [a, b, c, d, '-', e, f, '-', g, h]) ≠ 4 := by
    rw [testYearMonthDay_jsLength ht]
    omega
  have hne : String.mk [a, b, c, d, '-', e, f, '-', g, h] ≠ "" := by
    intro h
    have := congrArg String.length h
    simp at this
  have h1 : testYearMonth (String.mk [a, b, c, d, '-', e, f, '-', g, h]) = false := by
    simp [testYearMonth]
  have h2 : testYearWeek (String.mk [a, b, c, d, '-', e, f, '-', g, h]) = false := by
    simp [testYearWeek]
  simp only [filterByPeriod, hne, hl, ht, h1, h2, if_true, if_false, Bool.false_eq_true]

/-- The printed forms of a valid date. -/
theorem formats_of_valid {dt : Dayjs} (hv : dt.valid = true) :
    ∃ a b c d e f g h, a.isDigit = true ∧ b.isDigit = true ∧ c.isDigit = true
      ∧ d.isDigit = true ∧ e.isDigit = true ∧ f.isDigit = true ∧ g.isDigit = true
      ∧ h.isDigit = true ∧ dt.formatYYYY = String.mk [a, b, c, d]
      ∧ dt.formatYYYYMM = String.mk [a, b, c, d, '-', e, f]
      ∧ dt.formatYYYYMMDD = String.mk [a, b, c, d, '-', e, f, '-', g, h] := by
  obtain ⟨y, m, d, rfl, h0, h1, hm, hd⟩ := valid_ymd hv
  obtain ⟨a, b, c, e, hy, ha, hb, hc, he⟩ := yearChars_of_valid h0 h1
  obtain ⟨f, g, hmm, hf, hg⟩ := twoChars_of_lt hm
  obtain ⟨i, j, hdd, hi, hj⟩ := twoChars_of_lt hd
  refine ⟨a, b, c, e, f, g, i, j, ha, hb, hc, he, hf, hg, hi, hj, ?_, ?_, ?_⟩
  · simp only [Dayjs.formatYYYY, hy]
  · simp only [Dayjs.formatYYYYMM, hy, hmm]
    rfl
  · simp only [Dayjs.formatYYYYMMDD, hy, hmm, hdd]
    rfl

theorem filter_sublist_of_imp {α : Type} (p q : α → Bool) (l : List α)
    (h : ∀ x ∈ l, p x = true → q x = true) : (l.filter p).Sublist (l.filter q) := by
  induction l with
  | nil => simp
  | cons x xs ih =>
    have ih2 := ih (fun y hy => h y (List.mem_cons_of_mem _ hy))
    by_cases hp : p x = true
    · have hq := h x (List.mem_cons_self _ _) hp
      simp only [List.filter_cons, hp, hq, if_true]
      exact ih2.cons₂ x
    · by_cases hq : q x = true
      · simp only [List.filter_cons, hp, hq, if_true, if_false]
        exact ih2.cons x
      · simp only [List.filter_cons, hp, hq, if_false]
        exact ih2

/-- Outside the ISO year-week shape the code and the specification select the
same records: on a table of valid dates `filterByPeriod` returns the records
matched by the first applicable shape among year, year-month and
year-month-day, and the empty sequence for a token without a shape. -/
theorem filterByPeriod_eq_selectByPeriod_of_not_week (table : Table) (hv : allValid table)
    (token : String) (hw : classify token ≠ some Shape.yearWeek) :
    filterByPeriod (some table) token = selectByPeriod (some table) token := by
  by_cases he : token = ""
  · subst he
    rfl
  by_cases h4 : jsLength token = 4
  · by_cases hy : token.length = 4 ∧ token.toList.all Char.isDigit = true
    · simp only [filterByPeriod, selectByPeriod, classify, he, h4, hy, if_true, if_false,
        and_self]
      rfl
    · have hym : testYearMonth token = false := by
        cases h : testYearMonth token
        · rfl
        · have := testYearMonth_jsLength h
          omega
      have hyw : testYearWeek token = false := by
        cases h : testYearWeek token
        · rfl
        · have := testYearWeek_jsLength h
          omega
      have hymd : testYearMonthDay token = false := by
        cases h : testYearMonthDay token
        · rfl
        · have := testYearMonthDay_jsLength h
          omega
      have hnone : classify token = none := by
        simp only [classify, hy, hym, hyw, hymd, if_false, Bool.false_eq_true]
      simp only [filterByPeriod, selectByPeriod, he, h4, if_true, if_false, hnone]
      apply List.filter_eq_nil_iff.2
      intro r hr
      simp only [decide_eq_true_eq]
      intro heq
      apply hy
      rw [← heq]
      exact formatYYYY_year_token (hv r hr)
  · have hy : ¬ (token.length = 4 ∧ token.toList.all Char.isDigit = true) :=
      fun h => h4 (jsLength_of_year_token h)
    rcases Bool.eq_false_or_eq_true (testYearMonth token) with hym | hym
    · simp only [filterByPeriod, selectByPeriod, classify, he, h4, hy, if_false, hym, if_true]
      rfl
    · rcases Bool.eq_false_or_eq_true (testYearWeek token) with hyw | hyw
      · exfalso
        apply hw
        simp only [classify, hy, hym, hyw, if_true, if_false, Bool.false_eq_true]
      · rcases Bool.eq_false_or_eq_true (testYearMonthDay token) with hymd | hymd
        · simp only [filterByPeriod, selectByPeriod, classify, he, h4, hy, hym, hyw, hymd,
            if_true, if_false, Bool.false_eq_true]
          rfl
        · simp only [filterByPeriod, selectByPeriod, classify, he, h4, hy, hym, hyw, hymd,
            if_false, Bool.false_eq_true]

theorem allValid_scenarioTable : allValid scenarioTable := by
  intro r hr
  simp only [scenarioTable, List.mem_cons, List.mem_singleton, List.not_mem_nil, or_false] at hr
  rcases hr with rfl | rfl <;> rfl

theorem string_of_length_four (s : String) (h : s.length = 4) :
    ∃ a b c d, s = String.mk [a, b, c, d] := by
  obtain ⟨a, b, c, d, h⟩ := list_length_four s.toList h
  exact ⟨a, b, c, d, String.ext h⟩

theorem string_of_length_two (s : String) (h : s.length = 2) :
    ∃ a b, s = String.mk [a, b] := by
  obtain ⟨a, b, h⟩ := list_length_two s.toList h
  exact ⟨a, b, String.ext h⟩

/-- C9. On a table of valid dates, for a four-digit year `Y`, a two-digit month
`M` and a two-digit day `D`, the records selected by `Y-M-D` are a sub-sequence
of those selected by `Y-M`, which are a sub-sequence of those selected by `Y`;
each selection is a filter of the whole table by its own token. -/
theorem filterByPeriod_nested (table : Table) (hv : allValid table) (Y M D : String)
    (hY : Y.length = 4) (hYd : Y.toList.all Char.isDigit = true)
    (hM : M.length = 2) (hMd : M.toList.all Char.isDigit = true)
    (hD : D.length = 2) (hDd : D.toList.all Char.isDigit = true) :
    (filterByPeriod (some table) (Y ++ "-" ++ M ++ "-" ++ D)).Sublist
        (filterByPeriod (some table) (Y ++ "-" ++ M))
      ∧ (filterByPeriod (some table) (Y ++ "-" ++ M)).Sublist (filterByPeriod (some table) Y)
      ∧ filterByPeriod (some table) (Y ++ "-" ++ M ++ "-" ++ D)
          = table.filter (fun r => decide (r.date.formatYYYYMMDD = Y ++ "-" ++ M ++ "-" ++ D))
      ∧ filterByPeriod (some table) (Y ++ "-" ++ M)
          = table.filter (fun r => decide (r.date.formatYYYYMM = Y ++ "-" ++ M))
      ∧ filterByPeriod (some table) Y
          = table.filter (fun r => decide (r.date.formatYYYY = Y)) := by
  obtain ⟨a, b, c, d, rfl⟩ := string_of_length_four Y hY
  obtain ⟨e, f, rfl⟩ := string_of_length_two M hM
  obtain ⟨g, h, rfl⟩ := string_of_length_two D hD
  have hYd2 := List.all_eq_true.1 hYd
  have hMd2 := List.all_eq_true.1 hMd
  have hDd2 := List.all_eq_true.1 hDd
  have ha : a.isDigit = true := hYd2 a (by simp)
  have hb : b.isDigit = true := hYd2 b (by simp)
  have hc : c.isDigit = true := hYd2 c (by simp)
  have hd : d.isDigit = true := hYd2 d (by simp)
  have he : e.isDigit = true := hMd2 e (by simp)
  have hf : f.isDigit = true := hMd2 f (by simp)
  have hg : g.isDigit = true := hDd2 g (by simp)
  have hh : h.isDigit = true := hDd2 h (by simp)
  have e1 : String.mk [a, b, c, d] ++ "-" ++ String.mk [e, f] ++ "-" ++ String.mk [g, h]
      = String.mk [a, b, c, d, '-', e, f, '-', g, h] := rfl
  have e2 : String.mk [a, b, c, d] ++ "-" ++ String.mk [e, f]
      = String.mk [a, b, c, d, '-', e, f] := rfl
  rw [e1, e2, filterByPeriod_yearMonthDay table ha hb hc hd he hf hg hh,
    filterByPeriod_yearMonth table ha hb hc hd he hf, filterByPeriod_year table ha hb hc hd]
  refine ⟨?_, ?_, rfl, rfl, rfl⟩
  · apply filter_sublist_of_imp
    intro r hr hp
    obtain ⟨a', b', c', d', e', f', g', h', -, -, -, -, -, -, -, -, -, h2, h3⟩ :=
      formats_of_valid (hv r hr)
    simp only [decide_eq_true_eq] at hp ⊢
    rw [h3] at hp
    rw [h2]
    injection hp with hp
    simp only [List.cons.injEq, and_true] at hp
    obtain ⟨rfl, rfl, rfl, rfl, -, rfl, rfl, -, -, -⟩ := hp
    rfl
  · apply filter_sublist_of_imp
    intro r hr hp
    obtain ⟨a', b', c', d', e', f', g', h', -, -, -, -, -, -, -, -, h1, h2, -⟩ :=
      formats_of_valid (hv r hr)
    simp only [decide_eq_true_eq] at hp ⊢
    rw [h2] at hp
    rw [h1]
    injection hp with hp
    simp only [List.cons.injEq, and_true] at hp
    obtain ⟨rfl, rfl, rfl, rfl, -, -, -⟩ := hp
    rfl

/-- The theorem `filterByPeriod_nested` on the scenario table: `2024-01-10`,
`2024-01` and `2024` select one record, both records and both records. -/
theorem filterByPeriod_nested_witness :
    allValid scenarioTable
      ∧ ((filterByPeriod (some scenarioTable) ("2024" ++ "-" ++ "01" ++ "-" ++ "10")).Sublist
          (filterByPeriod (some scenarioTable) ("2024" ++ "-" ++ "01"))
        ∧ (filterByPeriod (some scenarioTable) ("2024" ++ "-" ++ "01")).Sublist
          (filterByPeriod (some scenarioTable) "2024"))
      ∧ filterByPeriod (some scenarioTable) "2024-01" = scenarioTable
      ∧ filterByPeriod (some scenarioTable) "2024" = scenarioTable
      ∧ avg (filterByPeriod (some scenarioTable) "2024-01") .sleepScore = 80
      ∧ avg (filterByPeriod (some scenarioTable) "2024") .sleepScore = 80 :=
  have h := filterByPeriod_nested scenarioTable allValid_scenarioTable "2024" "01" "10"
    (by decide) (by decide) (by decide) (by decide) (by decide) (by decide)
  ⟨allValid_scenarioTable, ⟨h.1, h.2.1⟩, by decide!, by decide!, by decide!, by decide!⟩

theorem foldl_add_eq_sum (f : Record → ℚ) (l : List Record) (init : ℚ) :
    l.foldl (fun sum row => sum + f row) init = init + (l.map f).sum := by
  induction l generalizing init with
  | nil => simp
  | cons x xs ih =>
    simp only [List.foldl_cons, List.map_cons, List.sum_cons]
    rw [ih]
    ring

theorem nonZeroValues_eq (arr : List Record) (key : Field) :
    nonZeroValues arr key
      = (arr.filter (fun row => decide (row.get key ≠ 0))).map (fun r => r.get key) := by
  unfold nonZeroValues
  induction arr with
  | nil => rfl
  | cons x xs ih =>
    by_cases h : x.get key = 0
    · simp only [List.map_cons, List.filter_cons, h, ne_eq, not_true_eq_false, decide_False,
        Bool.false_eq_true, if_false]
      exact ih
    · simp only [List.map_cons, List.filter_cons, h, ne_eq, not_false_eq_true, decide_True,
        if_true]
      exact congrArg _ ih

theorem avg_eq_mean_aux (arr : List Record) (key : Field) :
    avg arr key
      = (if nonZeroValues arr key = [] then 0
         else (nonZeroValues arr key).sum / ((nonZeroValues arr key).length : ℚ)) := by
  rw [nonZeroValues_eq]
  unfold avg
  simp only [foldl_add_eq_sum, zero_add, List.length_map, List.map_eq_nil_iff,
    List.length_eq_zero]

theorem avg_eq_zero_of_all_zero (arr : List Record) (key : Field)
    (h : ∀ r ∈ arr, r.get key = 0) : avg arr key = 0 := by
  have hnil : nonZeroValues arr key = [] := by
    rw [nonZeroValues_eq, List.map_eq_nil_iff, List.filter_eq_nil_iff]
    intro r hr
    simp [h r hr]
  rw [avg_eq_mean_aux, if_pos hnil]

/-- C3. The function `avg` returns 0 when no record has a non-zero value for
the field (the empty sequence and the all-zero sequence included), and
otherwise the sum of the non-zero values divided by their count. -/
theorem avg_eq_mean_of_nonZero (arr : List Record) (key : Field) :
    avg arr key
        = (if nonZeroValues arr key = [] then 0
           else (nonZeroValues arr key).sum / ((nonZeroValues arr key).length : ℚ))
      ∧ ((∀ r ∈ arr, r.get key = 0) → avg arr key = 0)
      ∧ avg [] key = 0 :=
  ⟨avg_eq_mean_aux arr key, avg_eq_zero_of_all_zero arr key, by simp [avg]⟩

/-- The theorem `avg_eq_mean_of_nonZero` on the scenario table: every activity
score is 0 and the average is 0; the sleep scores 70 and 90 average to 80. -/
theorem avg_eq_mean_of_nonZero_witness :
    (∀ r ∈ scenarioTable, r.get .activityScore = 0)
      ∧ avg scenarioTable .activityScore = 0
      ∧ nonZeroValues scenarioTable .sleepScore = [70, 90]
      ∧ avg scenarioTable .sleepScore = 80 :=
  have h0 : ∀ r ∈ scenarioTable, r.get .activityScore = 0 := by decide!
  ⟨h0, (avg_eq_mean_of_nonZero scenarioTable .activityScore).2.1 h0, by decide!, by decide!⟩

theorem insightSentence_ne_empty (field : Field) (a b : JsNum) :
    insightSentence field a b ≠ "" := by
  intro h
  have h2 := congrArg String.length h
  simp only [insightSentence, String.length_append] at h2
  have h3 : 0 < (" dibandingkan periode sebelumnya." : String).length := by decide
  have h4 : ("" : String).length = 0 := rfl
  omega

theorem insights_filter_eq (l : List Field) (d1 d2 : Table) :
    ((l.map (fun field =>
        if avgDouble d1 field = .fin 0 ∨ avgDouble d2 field = .fin 0 then none
        else some (insightSentence field (avgDouble d1 field) (avgDouble d2 field)))).filter
          truthy).filterMap id
      = (l.filter (fun f =>
          decide (avgDouble d1 f ≠ .fin 0 ∧ avgDouble d2 f ≠ .fin 0))).map
          (fun f => insightSentence f (avgDouble d1 f) (avgDouble d2 f)) := by
  induction l with
  | nil => rfl
  | cons f fs ih =>
    have hm : (f :: fs).map (fun field =>
        if avgDouble d1 field = .fin 0 ∨ avgDouble d2 field = .fin 0 then none
        else some (insightSentence field (avgDouble d1 field) (avgDouble d2 field)))
        = (if avgDouble d1 f = .fin 0 ∨ avgDouble d2 f = .fin 0 then none
            else some (insightSentence f (avgDouble d1 f) (avgDouble d2 f))) ::
          fs.map (fun field =>
            if avgDouble d1 field = .fin 0 ∨ avgDouble d2 field = .fin 0 then none
            else some (insightSentence field (avgDouble d1 field) (avgDouble d2 field))) := rfl
    rw [hm]
    by_cases h : avgDouble d1 f = .fin 0 ∨ avgDouble d2 f = .fin 0
    · have h2 : decide (avgDouble d1 f ≠ .fin 0 ∧ avgDouble d2 f ≠ .fin 0) = false := by
        apply decide_eq_false
        tauto
      have ht : truthy (none : Option String) = false := rfl
      rw [if_pos h, List.filter_cons_of_neg (by rw [ht]; exact Bool.false_ne_true),
        List.filter_cons_of_neg (by rw [h2]; exact Bool.false_ne_true)]
      exact ih
    · have h2 : decide (avgDouble d1 f ≠ .fin 0 ∧ avgDouble d2 f ≠ .fin 0) = true := by
        apply decide_eq_true
        tauto
      have ht : truthy (some (insightSentence f (avgDouble d1 f) (avgDouble d2 f))) = true := by
        simp only [truthy]
        exact decide_eq_true (insightSentence_ne_empty f (avgDouble d1 f) (avgDouble d2 f))
      rw [if_neg h, List.filter_cons_of_pos (by exact ht),
        List.filter_cons_of_pos (by exact h2), List.map_cons,
        List.filterMap_cons_some
          (by rfl : id (some (insightSentence f (avgDouble d1 f) (avgDouble d2 f)))
            = some (insightSentence f (avgDouble d1 f) (avgDouble d2 f)))]
      exact congrArg _ ih

/-- C4. The function `generateInsights` returns the empty list when either
selected subset is empty; otherwise it returns one sentence for exactly those
of the fields Sleep Score, Activity Score, Readiness Score, in this order,
whose average (as `avg` computes it) is non-zero in both periods, so at most
three sentences. On the table of January and February 2024 the activity
averages are 0 and the sentences are those of sleep and readiness. -/
theorem generateInsights_eq (data : Option Table) (compare1 compare2 : String) :
    generateInsights data compare1 compare2
        = (if filterByPeriod data compare1 = [] ∨ filterByPeriod data compare2 = [] then []
           else
            ([Field.sleepScore, Field.activityScore, Field.readinessScore].filter (fun f =>
                decide (avgDouble (filterByPeriod data compare1) f ≠ .fin 0
                  ∧ avgDouble (filterByPeriod data compare2) f ≠ .fin 0))).map
              (fun f => insightSentence f (avgDouble (filterByPeriod data compare1) f)
                (avgDouble (filterByPeriod data compare2) f)))
      ∧ (generateInsights data compare1 compare2).length ≤ 3
      ∧ [Field.sleepScore, Field.activityScore, Field.readinessScore].map Field.name
          = ["Sleep Score", "Activity Score", "Readiness Score"]
      ∧ generateInsights (some monthTable) "2024-01" "2024-02"
          = ["Sleep Score meningkat 17.6% dibandingkan periode sebelumnya.",
             "Readiness Score menurun 28.7% dibandingkan periode sebelumnya."]
      ∧ generateInsights (some monthTable) "2024-01" "2023" = []
      ∧ generateInsights (some monthTable) "2022" "2024-02" = [] := by
  have main : generateInsights data compare1 compare2
        = (if filterByPeriod data compare1 = [] ∨ filterByPeriod data compare2 = [] then []
           else
            ([Field.sleepScore, Field.activityScore, Field.readinessScore].filter (fun f =>
                decide (avgDouble (filterByPeriod data compare1) f ≠ .fin 0
                  ∧ avgDouble (filterByPeriod data compare2) f ≠ .fin 0))).map
              (fun f => insightSentence f (avgDouble (filterByPeriod data compare1) f)
                (avgDouble (filterByPeriod data compare2) f))) := by
    unfold generateInsights
    simp only [List.length_eq_zero]
    split_ifs
    · rfl
    · exact insights_filter_eq _ _ _
  refine ⟨main, ?_, rfl, by decide!, by decide!, by decide!⟩
  rw [main]
  split_ifs
  · simp
  · rw [List.length_map]
    exact (List.length_filter_le _ _).trans (by simp)

/-- The text of `toFixed1` on a non-negative number below `10 ^ 21`: the
number of tenths `n` with `n / 10 - 1 / 20 ≤ x < n / 10 + 1 / 20`, printed
with one decimal. -/
theorem toFixed1_of_nonneg (x : ℚ) (hx : 0 ≤ x) (hlt : x < 10 ^ 21) :
    ∃ n : ℕ, (n : ℚ) / 10 - 1 / 20 ≤ x ∧ x < (n : ℚ) / 10 + 1 / 20
      ∧ toFixed1 (.fin x)
        = String.mk (natChars (n / 10)) ++ "." ++ String.mk (natChars (n % 10)) := by
  have habs : |x| = x := abs_of_nonneg hx
  refine ⟨(⌊x * 10 + 1 / 2⌋).toNat, ?_, ?_, ?_⟩
  · have hnn : (0 : ℤ) ≤ ⌊x * 10 + 1 / 2⌋ := Int.floor_nonneg.2 (by positivity)
    have hcast : (((⌊x * 10 + 1 / 2⌋).toNat : ℕ) : ℚ) = ((⌊x * 10 + 1 / 2⌋ : ℤ) : ℚ) := by
      have := Int.toNat_of_nonneg hnn
      exact_mod_cast this
    rw [hcast]
    have h1 := Int.floor_le (x * 10 + 1 / 2)
    linarith
  · have hnn : (0 : ℤ) ≤ ⌊x * 10 + 1 / 2⌋ := Int.floor_nonneg.2 (by positivity)
    have hcast : (((⌊x * 10 + 1 / 2⌋).toNat : ℕ) : ℚ) = ((⌊x * 10 + 1 / 2⌋ : ℤ) : ℚ) := by
      have := Int.toNat_of_nonneg hnn
      exact_mod_cast this
    rw [hcast]
    have h2 := Int.lt_floor_add_one (x * 10 + 1 / 2)
    linarith
  · have hneg : ¬ x < 0 := not_lt.2 hx
    have hbig : ¬ (10 : ℚ) ^ 21 ≤ x := not_le.2 hlt
    simp only [toFixed1, habs, hbig, hneg, if_false, List.nil_append]
    apply String.ext
    simp only [String.data_append, List.append_assoc]
    rfl

/-- C5 (amended). When the percent difference `diff = (a - b) / b * 100` that
the code computes from the averages is finite and below `10 ^ 21` in
magnitude, the sentence names the field, says `meningkat` exactly when `diff`
is greater than 0 and `menurun` otherwise, and prints `|diff|` rounded to one
decimal place: the number of tenths `n` with
`n / 10 - 1 / 20 ≤ |diff| < n / 10 + 1 / 20`. -/
theorem insightSentence_eq (field : Field) (a b : JsNum) (q : ℚ)
    (hd : percentDiff a b = .fin q) (hq : |q| < 10 ^ 21) :
    ∃ n : ℕ, (n : ℚ) / 10 - 1 / 20 ≤ |q| ∧ |q| < (n : ℚ) / 10 + 1 / 20
      ∧ insightSentence field a b
        = field.name ++ " "
          ++ ((if 0 < q then "meningkat " else "menurun ")
            ++ (String.mk (natChars (n / 10)) ++ "." ++ String.mk (natChars (n % 10))) ++ "%")
          ++ " dibandingkan periode sebelumnya." := by
  obtain ⟨n, h1, h2, htxt⟩ := toFixed1_of_nonneg |q| (abs_nonneg q) hq
  refine ⟨n, h1, h2, ?_⟩
  unfold insightSentence
  simp only [hd, JsNum.isPositive, JsNum.abs]
  by_cases hpos : 0 < q
  · have habs : |q| = q := abs_of_pos hpos
    rw [habs] at htxt
    simp only [hpos, decide_True, if_true, htxt]
  · simp only [hpos, decide_False, if_false, htxt, Bool.false_eq_true]

/-- The theorem `insightSentence_eq` at the averages 80 and 64, an increase
of 25.0%, and at the averages 57 and 80, whose difference is computed as
-28.749999999999996 and printed as a decrease of 28.7%. -/
theorem insightSentence_eq_witness :
    percentDiff (.fin 80) (.fin 64) = .fin 25 ∧ |(25 : ℚ)| < 10 ^ 21
      ∧ (∃ n : ℕ, (n : ℚ) / 10 - 1 / 20 ≤ |(25 : ℚ)| ∧ |(25 : ℚ)| < (n : ℚ) / 10 + 1 / 20
        ∧ insightSentence .sleepScore (.fin 80) (.fin 64)
          = Field.sleepScore.name ++ " "
            ++ ((if (0 : ℚ) < 25 then "meningkat " else "menurun ")
              ++ (String.mk (natChars (n / 10)) ++ "." ++ String.mk (natChars (n % 10)))
              ++ "%")
            ++ " dibandingkan periode sebelumnya.")
      ∧ insightSentence .sleepScore (.fin 80) (.fin 64)
          = "Sleep Score meningkat 25.0% dibandingkan periode sebelumnya."
      ∧ percentDiff (.fin 57) (.fin 80) = .fin (-8092405580431359 / 281474976710656)
      ∧ insightSentence .readinessScore (.fin 57) (.fin 80)
          = "Readiness Score menurun 28.7% dibandingkan periode sebelumnya." :=
  ⟨by decide!, by norm_num,
    insightSentence_eq .sleepScore (.fin 80) (.fin 64) 25 (by decide!) (by norm_num),
    by decide!, by decide!, by decide!⟩

/-- C5, counterexample. The averages 10^19 and 1 are positive and their
percent difference is computed as 10^21; `toFixed(1)` prints it in exponent
notation, not with one decimal place. -/
theorem insightSentence_counterexample :
    decimalNumber "10000000000000000000" = some ((10 : ℚ) ^ 19)
      ∧ (0 : ℚ) < 10 ^ 19 ∧ (0 : ℚ) < 1
      ∧ percentDiff (.fin ((10 : ℚ) ^ 19)) (.fin 1) = .fin ((10 : ℚ) ^ 21)
      ∧ insightSentence .sleepScore (.fin ((10 : ℚ) ^ 19)) (.fin 1)
          = "Sleep Score meningkat 1e+21% dibandingkan periode sebelumnya." := by
  decide!

theorem mathRound_fin (x : ℚ) :
    ∃ n : ℤ, mathRound (.fin x) = .fin (n : ℚ) ∧ (n : ℚ) - 1 / 2 ≤ x ∧ x < (n : ℚ) + 1 / 2 := by
  refine ⟨⌊x + 1 / 2⌋, rfl, ?_, ?_⟩
  · have h1 := Int.floor_le (x + 1 / 2)
    linarith
  · have h2 := Int.lt_floor_add_one (x + 1 / 2)
    linarith

theorem avgDouble_eq_zero_of_all_zero (arr : List Record) (key : Field)
    (h : ∀ r ∈ arr, r.get key = 0) : avgDouble arr key = .fin 0 := by
  have hnil : arr.filter (fun row => decide (row.get key ≠ 0)) = [] := by
    rw [List.filter_eq_nil_iff]
    intro r hr
    simp [h r hr]
  unfold avgDouble
  simp only [hnil, List.length_nil, if_true]

theorem entry_get (c1 c2 : String) (v0 v1 v2 : JsVal) (h1 : c1 ≠ "name") (h2 : c2 ≠ "name") :
    (((JsObject.set [] "name" v0).set c1 v1).set c2 v2).get? "name" = some v0
      ∧ (((JsObject.set [] "name" v0).set c1 v1).set c2 v2).get? c1
          = some (if c1 = c2 then v2 else v1)
      ∧ (((JsObject.set [] "name" v0).set c1 v1).set c2 v2).get? c2 = some v2 := by
  have h1' : ¬ "name" = c1 := fun h => h1 h.symm
  have h2' : ¬ "name" = c2 := fun h => h2 h.symm
  by_cases h : c1 = c2
  · subst h
    simp [JsObject.set, JsObject.get?, h1, h1']
  · have h' : ¬ c2 = c1 := fun e => h e.symm
    simp [JsObject.set, JsObject.get?, h1, h1', h2, h2', h, h']

theorem natChars_ne_n (n : Nat) : ∀ c ∈ natChars n, c ≠ 'n' := by
  intro c hc h
  have := natChars_isDigit n c hc
  rw [h] at this
  exact absurd this (by decide)

theorem intChars_ne_n (y : Int) : ∀ c ∈ intChars y, c ≠ 'n' := by
  intro c hc
  unfold intChars at hc
  split at hc
  · rcases List.mem_cons.1 hc with rfl | hc
    · decide
    · exact natChars_ne_n _ c hc
  · exact natChars_ne_n _ c hc

theorem formatYYYY_ne_name (dt : Dayjs) : dt.formatYYYY ≠ "name" := by
  cases dt with
  | invalid => decide
  | ymd y m d =>
    intro h
    have h2 : padStart (intChars y) 4 = ['n', 'a', 'm', 'e'] := congrArg String.data h
    have h3 : 'n' ∈ padStart (intChars y) 4 := by rw [h2]; simp
    simp only [padStart, List.mem_append] at h3
    rcases h3 with h3 | h3
    · exact absurd (List.mem_replicate.1 h3).2 (by decide)
    · exact intChars_ne_n y _ h3 rfl

/-- No record is selected by the token `name`. -/
theorem filterByPeriod_name (data : Option Table) : filterByPeriod data "name" = [] := by
  cases data with
  | none => rfl
  | some t =>
    have hl : jsLength "name" = 4 := by decide
    have he : ("name" : String) ≠ "" := by decide
    simp only [filterByPeriod, he, hl, if_true, if_false]
    apply List.filter_eq_nil_iff.2
    intro r _
    simp only [decide_eq_true_eq]
    exact formatYYYY_ne_name r.date

/-- C6 (amended). The chart data is absent exactly when a selected subset is
empty; otherwise it has one entry per field in the order Sleep Score, Activity
Score, Readiness Score, whose name is the field name and whose values under
the two tokens are the averages of the two subsets (as `avg` computes them)
rounded by `Math.round`: the nearest integer, a half going up (74.4 gives 74,
74.6 gives 75), which on non-negative averages is rounding half away from
zero; a field whose values are all 0 gets the value 0. -/
theorem comparisonChart_eq (data : Option Table) (compare1 compare2 : String) :
    (comparisonChart data compare1 compare2).map
        (fun chart => chart.map (fun e => (e.get? "name", e.get? compare1, e.get? compare2)))
        = (if filterByPeriod data compare1 = [] ∨ filterByPeriod data compare2 = [] then none
           else some ([Field.sleepScore, Field.activityScore, Field.readinessScore].map
            (fun f =>
              (some (JsVal.str f.name),
                some (JsVal.num (mathRound (avgDouble (filterByPeriod data compare1) f))),
                some (JsVal.num (mathRound (avgDouble (filterByPeriod data compare2) f)))))))
      ∧ (comparisonChart data compare1 compare2 = none
          ↔ filterByPeriod data compare1 = [] ∨ filterByPeriod data compare2 = [])
      ∧ [Field.sleepScore, Field.activityScore, Field.readinessScore].map Field.name
          = ["Sleep Score", "Activity Score", "Readiness Score"]
      ∧ (∀ x : ℚ, ∃ n : ℤ, mathRound (.fin x) = .fin (n : ℚ)
          ∧ (n : ℚ) - 1 / 2 ≤ x ∧ x < (n : ℚ) + 1 / 2)
      ∧ (∀ x : ℚ, 0 ≤ x → mathRound (.fin x) = .fin (roundHalfAwayFromZero x : ℚ))
      ∧ mathRound (JsNum.ofRat (744 / 10)) = .fin 74
      ∧ mathRound (JsNum.ofRat (746 / 10)) = .fin 75
      ∧ (∀ (d : Table) (f : Field), (∀ r ∈ d, r.get f = 0) →
          mathRound (avgDouble d f) = .fin 0) := by
  refine ⟨?_, ?_, rfl, mathRound_fin, ?_, by decide!, by decide!, ?_⟩
  · unfold comparisonChart
    simp only [List.length_eq_zero]
    split_ifs with h
    · rfl
    · have hn1 : compare1 ≠ "name" := by
        rintro rfl
        exact h (Or.inl (filterByPeriod_name data))
      have hn2 : compare2 ≠ "name" := by
        rintro rfl
        exact h (Or.inr (filterByPeriod_name data))
      simp only [Option.map_some', List.map_map, Option.some.injEq, fields]
      apply List.map_congr_left
      intro f _
      obtain ⟨g0, g1, g2⟩ := entry_get compare1 compare2 (JsVal.str f.name)
        (JsVal.num (mathRound (avgDouble (filterByPeriod data compare1) f)))
        (JsVal.num (mathRound (avgDouble (filterByPeriod data compare2) f))) hn1 hn2
      simp only [Function.comp, g0, g1, g2]
      by_cases hc : compare1 = compare2
      · subst hc
        simp only [if_true]
      · simp only [hc, if_false]
  · unfold comparisonChart
    simp only [List.length_eq_zero]
    split_ifs with h
    · simp only [true_iff]
      exact h
    · simp only [false_iff, reduceCtorEq]
      exact h
  · intro x hx
    simp only [roundHalfAwayFromZero, mathRound, hx, if_true]
  · intro d f h
    rw [avgDouble_eq_zero_of_all_zero d f h]
    decide!

/-- The theorem `comparisonChart_eq` on the table of January and February
2024: the sleep scores 77.8, 79.1, 63.6 average to 73.49999999999999 and are
charted as 73, the sleep scores 97.6, 27.4 average to 62.5 and are charted as
63; every activity score is 0 and is charted as 0. -/
theorem comparisonChart_eq_witness :
    (0 : ℚ) ≤ 125 / 2
      ∧ mathRound (.fin (125 / 2)) = .fin (roundHalfAwayFromZero (125 / 2) : ℚ)
      ∧ (∀ r ∈ monthTable, r.get .activityScore = 0)
      ∧ mathRound (avgDouble monthTable .activityScore) = .fin 0
      ∧ avgDouble (filterByPeriod (some monthTable) "2024-01") .sleepScore
          = .fin (5172102697058303 / 70368744177664)
      ∧ avgDouble (filterByPeriod (some monthTable) "2024-02") .sleepScore = .fin (125 / 2)
      ∧ comparisonChart (some monthTable) "2024-01" "2024-02"
        = some [[("name", .str "Sleep Score"), ("2024-01", .num (.fin 73)),
              ("2024-02", .num (.fin 63))],
            [("name", .str "Activity Score"), ("2024-01", .num (.fin 0)),
              ("2024-02", .num (.fin 0))],
            [("name", .str "Readiness Score"), ("2024-01", .num (.fin 57)),
              ("2024-02", .num (.fin 80))]]
      ∧ comparisonChart (some monthTable) "2024-01" "2023" = none :=
  have h := comparisonChart_eq (some monthTable) "2024-01" "2024-02"
  ⟨by norm_num, h.2.2.2.2.1 (125 / 2) (by norm_num), by decide!,
    h.2.2.2.2.2.2.2 monthTable .activityScore (by decide!), by decide!, by decide!,
    by decide!, by decide!⟩

/-- C6, counterexample. On the table loaded from the sample rows the single
record of 2024 has sleep score -2.5; the chart shows -2 for it, while rounding
half away from zero gives -3. -/
theorem comparisonChart_counterexample :
    avgDouble (filterByPeriod (some (parsed decimalNumber isoDate sampleRows)) "2024")
        .sleepScore = .fin (-5 / 2)
      ∧ roundHalfAwayFromZero (-5 / 2) = -3
      ∧ mathRound (.fin (-5 / 2)) = .fin (-2)
      ∧ mathRound (.fin (-5 / 2)) ≠ .fin (roundHalfAwayFromZero (-5 / 2) : ℚ)
      ∧ (comparisonChart (some (parsed decimalNumber isoDate sampleRows)) "2024" "2024").map
          (fun chart => chart.map (fun e => e.get? "2024"))
        = some [some (.num (.fin (-2))), some (.num (.fin 0)), some (.num (.fin 0))] := by
  decide!

theorem numberOrZero_eq (toNumber : String → Option ℚ) (v : Option String) :
    numberOrZero toNumber v = ((v.bind toNumber).getD 0) := by
  cases v with
  | none => rfl
  | some s =>
    simp only [numberOrZero, Option.bind]
    cases h : toNumber s with
    | none => rfl
    | some q =>
      by_cases hq : q = 0
      · simp [hq]
      · simp [hq]

theorem toRecord_get (toNumber : String → Option ℚ) (parseDate : Option String → Dayjs) (r : Row)
    (f : Field) :
    (toRecord toNumber parseDate r).get f = numberOrZero toNumber (r.col f.name) := by
  cases f <;> rfl

/-- Membership in the selection by the own date of a record with a valid date. -/
theorem mem_filterByPeriod_own_date (t : Table) (rec : Record) (hmem : rec ∈ t)
    (hv : rec.date.valid = true) : rec ∈ filterByPeriod (some t) rec.date.formatYYYYMMDD := by
  obtain ⟨a, b, c, d, e, f, g, h, ha, hb, hc, hd, he, hf, hg, hh, -, -, h3⟩ :=
    formats_of_valid hv
  rw [h3, filterByPeriod_yearMonthDay t ha hb hc hd he hf hg hh, List.mem_filter]
  exact ⟨hmem, decide_eq_true h3⟩

/-- C8 (amended). For every raw row that the loader retains, each of the three
score fields of the resulting record equals the numeric value of the column
when the column is numeric, negative values included, and 0 when the column is
missing or not numeric; the table consists of exactly these records. -/
theorem parsed_scores (toNumber : String → Option ℚ) (parseDate : Option String → Dayjs)
    (rows : List Row) (r : Row) (hr : r ∈ rows) (hd : hasDate r = true) (f : Field) :
    toRecord toNumber parseDate r ∈ parsed toNumber parseDate rows
      ∧ (r.col f.name = none → (toRecord toNumber parseDate r).get f = 0)
      ∧ (∀ s, r.col f.name = some s → toNumber s = none →
          (toRecord toNumber parseDate r).get f = 0)
      ∧ (∀ s v, r.col f.name = some s → toNumber s = some v →
          (toRecord toNumber parseDate r).get f = v)
      ∧ (∀ rec ∈ parsed toNumber parseDate rows,
          ∃ r' ∈ rows, hasDate r' = true ∧ rec = toRecord toNumber parseDate r') := by
  refine ⟨?_, ?_, ?_, ?_, ?_⟩
  · exact List.mem_map.2 ⟨r, List.mem_filter.2 ⟨hr, hd⟩, rfl⟩
  · intro h
    rw [toRecord_get, numberOrZero_eq, h]
    rfl
  · intro s h1 h2
    rw [toRecord_get, numberOrZero_eq, h1]
    simp [h2]
  · intro s v h1 h2
    rw [toRecord_get, numberOrZero_eq, h1]
    simp [h2]
  · intro rec hrec
    obtain ⟨r', hr', rfl⟩ := List.mem_map.1 hrec
    obtain ⟨h1, h2⟩ := List.mem_filter.1 hr'
    exact ⟨r', h1, h2, rfl⟩

/-- The theorem `parsed_scores` on the first sample row: the sleep score is
-2.5, the non-numeric activity score and the missing readiness score are 0. -/
theorem parsed_scores_witness :
    [("date", "2024-01-10"), ("Sleep Score", "-2.5"), ("Activity Score", "x")] ∈ sampleRows
      ∧ hasDate [("date", "2024-01-10"), ("Sleep Score", "-2.5"), ("Activity Score", "x")] = true
      ∧ (toRecord decimalNumber isoDate
          [("date", "2024-01-10"), ("Sleep Score", "-2.5"), ("Activity Score", "x")]).get
            .sleepScore = -5 / 2
      ∧ (toRecord decimalNumber isoDate
          [("date", "2024-01-10"), ("Sleep Score", "-2.5"), ("Activity Score", "x")]).get
            .activityScore = 0
      ∧ (toRecord decimalNumber isoDate
          [("date", "2024-01-10"), ("Sleep Score", "-2.5"), ("Activity Score", "x")]).get
            .readinessScore = 0 :=
  ⟨by decide, by decide,
    (parsed_scores decimalNumber isoDate sampleRows _ (by decide) (by decide)
      .sleepScore).2.2.2.1 "-2.5" (-5 / 2) (by decide) (by decide!),
    (parsed_scores decimalNumber isoDate sampleRows _ (by decide) (by decide)
      .activityScore).2.2.1 "x" (by decide) (by decide!),
    (parsed_scores decimalNumber isoDate sampleRows _ (by decide) (by decide)
      .readinessScore).2.1 (by decide)⟩

/-- C8, counterexample. The first sample row is retained and its sleep score
column `-2.5` is numeric; the field of the record is -2.5, a negative number. -/
theorem parsed_scores_counterexample :
    hasDate [("date", "2024-01-10"), ("Sleep Score", "-2.5"), ("Activity Score", "x")] = true
      ∧ decimalNumber "-2.5" = some (-5 / 2)
      ∧ (parsed decimalNumber isoDate sampleRows).map (fun r => r.get .sleepScore)
          = [-5 / 2, 81]
      ∧ ¬ (∀ r ∈ parsed decimalNumber isoDate sampleRows, 0 ≤ r.get .sleepScore) := by
  decide!

/-- C7 (amended). After the loader has built the table, filtering it by the
`YYYY-MM-DD` text of the date of a loaded record returns a sequence that
contains the record, for every record whose date column was parsed to a valid
date with a four-digit year. -/
theorem loaded_record_selected_by_own_date (toNumber : String → Option ℚ)
    (parseDate : Option String → Dayjs) (st : State) (rows : List Row) (rec : Record)
    (hrec : rec ∈ parsed toNumber parseDate rows) (hv : rec.date.valid = true) :
    (handleFileUpload toNumber parseDate st (some rows)).data
        = some (parsed toNumber parseDate rows)
      ∧ rec ∈ filterByPeriod (handleFileUpload toNumber parseDate st (some rows)).data
          rec.date.formatYYYYMMDD :=
  ⟨rfl, mem_filterByPeriod_own_date _ rec hrec hv⟩

/-- The theorem `loaded_record_selected_by_own_date` on the sample rows: the
record of 2024-01-10 is found by the token `2024-01-10`. -/
theorem loaded_record_selected_by_own_date_witness :
    toRecord decimalNumber isoDate
        [("date", "2024-01-10"), ("Sleep Score", "-2.5"), ("Activity Score", "x")]
      ∈ filterByPeriod (handleFileUpload decimalNumber isoDate State.init (some sampleRows)).data
          "2024-01-10" :=
  (loaded_record_selected_by_own_date decimalNumber isoDate State.init sampleRows
    (toRecord decimalNumber isoDate
      [("date", "2024-01-10"), ("Sleep Score", "-2.5"), ("Activity Score", "x")])
    (by decide!) (by decide!)).2

/-- C7, counterexample. The sample row with the date column `abc` is retained
by the loader; its date is the invalid date, whose text `Invalid Date` is no
period token, so filtering by it returns the empty sequence. -/
theorem loaded_record_selected_by_own_date_counterexample :
    hasDate [("date", "abc"), ("Sleep Score", "81"), ("Readiness Score", "77")] = true
      ∧ toRecord decimalNumber isoDate
          [("date", "abc"), ("Sleep Score", "81"), ("Readiness Score", "77")]
        ∈ parsed decimalNumber isoDate sampleRows
      ∧ (toRecord decimalNumber isoDate
          [("date", "abc"), ("Sleep Score", "81"), ("Readiness Score", "77")]).date.formatYYYYMMDD
        = "Invalid Date"
      ∧ filterByPeriod (handleFileUpload decimalNumber isoDate State.init (some sampleRows)).data
          "Invalid Date" = [] := by
  decide!

theorem PageState.step_data (st : PageState) (ev : PageEvent) : (st.step ev).data = st.data := by
  cases ev <;> rfl

theorem PageState.run_data (st : PageState) (evs : List PageEvent) :
    (st.run evs).data = st.data := by
  induction evs generalizing st with
  | nil => rfl
  | cons ev evs ih =>
    simp only [PageState.run, List.foldl_cons] at ih ⊢
    rw [ih, PageState.step_data]

/-- C10. In the component of `pages/index.js` no event assigns the table:
after every sequence of language and period-text changes from the initial
state, `data` is still `null`, so `filterByPeriod` returns the empty sequence
for every token, the chart data is absent and `generateInsights` returns the
empty list. -/
theorem page_data_stays_null (evs : List PageEvent) (token : String) :
    (PageState.init.run evs).data = none
      ∧ filterByPeriod (PageState.init.run evs).data token = []
      ∧ comparisonChart (PageState.init.run evs).data (PageState.init.run evs).compare1
          (PageState.init.run evs).compare2 = none
      ∧ generateInsights (PageState.init.run evs).data (PageState.init.run evs).compare1
          (PageState.init.run evs).compare2 = [] := by
  have h : (PageState.init.run evs).data = none := by
    rw [PageState.run_data]
    rfl
  rw [h]
  exact ⟨rfl, rfl, rfl, rfl⟩

/-- C2, the failing input. With the first and the last Monday of 2024 in the
table, the token `2024-W1` selects both: 2024-12-30 has ISO week number 1 and
calendar year 2024, but lies in ISO week 1 of 2025, 52 weeks after 2024-01-01;
the token `2025-W1` does not select it. -/
theorem filterByPeriod_week_uses_calendar_year :
    filterByPeriod (some weekTable) "2024-W1" = weekTable
      ∧ (Dayjs.ymd 2024 12 30).isoWeek = some 1
      ∧ (Dayjs.ymd 2024 12 30).year = some 2024
      ∧ (Dayjs.ymd 2024 12 30).isoWeekYear = some 2025
      ∧ (Dayjs.ymd 2024 1 1).isoWeekYear = some 2024
      ∧ (Dayjs.ymd 2024 1 1).weekStart = some 19723
      ∧ (Dayjs.ymd 2024 12 30).weekStart = some 20087
      ∧ filterByPeriod (some weekTable) "2025-W1" = [] := by
  decide!

/-- C1, the failing input. On the table of 2020-12-31, 2021-01-01 and
2021-01-04 the ISO year-week shape is the first applicable shape of the token
`2020-W53`, and ISO week 53 of 2020 holds the first two records; the code
returns only 2020-12-31, and returns 2021-01-01 for the token `2021-W53`,
a week that the year 2021 does not have. On the token `2021-W1` both agree. -/
theorem filterByPeriod_week_differs_from_iso_week :
    classify "2020-W53" = some Shape.yearWeek
      ∧ (selectByPeriod (some newYearTable) "2020-W53").map (fun r => r.date)
          = [.ymd 2020 12 31, .ymd 2021 1 1]
      ∧ (filterByPeriod (some newYearTable) "2020-W53").map (fun r => r.date)
          = [.ymd 2020 12 31]
      ∧ selectByPeriod (some newYearTable) "2021-W53" = []
      ∧ (filterByPeriod (some newYearTable) "2021-W53").map (fun r => r.date)
          = [.ymd 2021 1 1]
      ∧ (selectByPeriod (some newYearTable) "2021-W1").map (fun r => r.date)
          = [.ymd 2021 1 4]
      ∧ (filterByPeriod (some newYearTable) "2021-W1").map (fun r => r.date)
          = [.ymd 2021 1 4]
      ∧ filterByPeriod (some newYearTable) "2020-W53"
          ≠ selectByPeriod (some newYearTable) "2020-W53" := by
  decide!

end Dashboard
